import Mathlib

/-!
Shallow embedding of `src/magic_target.py`, a two-pass company-scoring
pipeline, together with proofs settling the frozen specification claims.

Modelling conventions:
* Machine integers are `Nat`/`Int`; Python floats (used only for parsed
  money values and the revenue thresholds, all exactly representable at
  the magnitudes involved) are modelled as `ℚ`.
* Dataset cells are strings (the loader reads the CSV with `dtype=str`
  and fills missing cells with `""`); the Python-level dynamic values fed
  to the field normalizers are modelled by `PyValue`.
* String processing is modelled at ASCII fidelity over `List Char`; the
  concrete regular expressions of the source are compiled by hand into
  deterministic scanners (the patterns involved are backtracking-free on
  their alphabets).
* Network effects are modelled by an explicit `Web` oracle giving the
  outcome of every page fetch, link extraction and search-API call; a
  Python exception or timeout inside `requests` is the `.err` outcome.
  `time.sleep` has no observable effect on the computed data and is
  dropped.
* The fixed reference instant `NOW` of the source is 2025-10-15 UTC.
-/

/-- A Python value handed to a field normalizer: a string, an int, or None. -/
inductive PyValue where
  | pstr (s : String)
  | pint (n : Int)
  | pnone
deriving DecidableEq, Repr

/-- Python `\s` (ASCII): space, tab, newline, carriage return, vertical tab, form feed. -/
def isPyWs (c : Char) : Bool :=
  c = ' ' || c = '\t' || c = '\n' || c = '\r' || c = '\x0b' || c = '\x0c'

/-- Python `str.strip()` on an ASCII character list. -/
def trimL (cs : List Char) : List Char :=
  ((cs.dropWhile isPyWs).reverse.dropWhile isPyWs).reverse

/-- ASCII lowercase of a character list. -/
def lowerL (cs : List Char) : List Char := cs.map Char.toLower

/-- ASCII uppercase of a character list. -/
def upperL (cs : List Char) : List Char := cs.map Char.toUpper

/-- Numeric value of a list of decimal digit characters (most significant first). -/
def natOfDigits (cs : List Char) : Nat :=
  cs.foldl (fun a c => 10 * a + (c.toNat - 48)) 0

/-- Replace every non-overlapping occurrence of `pat` (nonempty) by `rep`,
scanning left to right, as Python `str.replace`.  Fuel-indexed; the fuel
`cs.length` always suffices because each step consumes at least one input
character. -/
def replGo (pat rep : List Char) : Nat → List Char → List Char
  | 0, cs => cs
  | _ + 1, [] => []
  | f + 1, c :: rest =>
    if pat.isPrefixOf (c :: rest) then
      rep ++ replGo pat rep f ((c :: rest).drop pat.length)
    else
      c :: replGo pat rep f rest

/-- Python `str.replace pat rep` for a nonempty ASCII `pat`. -/
def replacePat (pat rep cs : List Char) : List Char :=
  replGo pat rep cs.length cs

/-- Whether `pat` occurs as a contiguous substring of `cs` (Python `in`). -/
def containsPat (pat : List Char) : List Char → Bool
  | [] => pat.isEmpty
  | c :: rest => pat.isPrefixOf (c :: rest) || containsPat pat rest

/-! ### Date parsing: `months_since`

`datetime.strptime` is tried over the seven formats of the source in
order; a format succeeds when its regex matches the whole string and the
resulting `(year, month, day)` triple passes `datetime`'s own calendar
validation.  The numeric field patterns (`%Y` = exactly four digits,
`%m` = `1[0-2]|0[1-9]|[1-9]`, `%d` = `3[01]|[12]\d|0[1-9]|[1-9]`) are
compiled to greedy scanners; greediness is exact here because every
character that can follow a completed numeric field in these formats is a
non-digit. -/

/-- A parsed calendar date: (year, month, day). -/
abbrev PyDate := Nat × Nat × Nat

/-- Exactly four decimal digits (`%Y`). -/
def p4digits : List Char → Option (Nat × List Char)
  | a :: b :: c :: d :: rest =>
    if a.isDigit && b.isDigit && c.isDigit && d.isDigit then
      some (natOfDigits [a, b, c, d], rest)
    else none
  | _ => none

/-- One- or two-digit numeric field bounded by `hi`, two-digit form preferred
(regex `1[0-2]|0[1-9]|[1-9]` for `hi = 12`, `3[01]|[12]\d|0[1-9]|[1-9]` for `hi = 31`). -/
def pNum2 (hi : Nat) : List Char → Option (Nat × List Char)
  | [] => none
  | a :: rest1 =>
    if a.isDigit then
      match rest1 with
      | b :: rest2 =>
        if b.isDigit then
          let v := natOfDigits [a, b]
          if 1 ≤ v && v ≤ hi then some (v, rest2)
          else if a ≠ '0' then some (natOfDigits [a], rest1) else none
        else if a ≠ '0' then some (natOfDigits [a], rest1) else none
      | [] => if a ≠ '0' then some (natOfDigits [a], []) else none
    else none

/-- Month number field `%m`. -/
def pMonthNum : List Char → Option (Nat × List Char) := pNum2 12

/-- Day-of-month number field `%d`. -/
def pDayNum : List Char → Option (Nat × List Char) := pNum2 31

/-- A single literal character. -/
def litChar (c : Char) : List Char → Option (List Char)
  | d :: rest => if d = c then some rest else none
  | [] => none

/-- At least one whitespace character (a run of whitespace in a `strptime`
format matches `\s+`). -/
def skipWs1 (cs : List Char) : Option (List Char) :=
  match cs with
  | c :: rest => if isPyWs c then some (rest.dropWhile isPyWs) else none
  | [] => none

/-- English month abbreviations recognized by `%b` (input already lowercased). -/
def monthAbbrevs : List (List Char × Nat) :=
  [("jan".toList, 1), ("feb".toList, 2), ("mar".toList, 3), ("apr".toList, 4),
   ("may".toList, 5), ("jun".toList, 6), ("jul".toList, 7), ("aug".toList, 8),
   ("sep".toList, 9), ("oct".toList, 10), ("nov".toList, 11), ("dec".toList, 12)]

/-- Full English month names recognized by `%B` (input already lowercased). -/
def monthFulls : List (List Char × Nat) :=
  [("january".toList, 1), ("february".toList, 2), ("march".toList, 3),
   ("april".toList, 4), ("may".toList, 5), ("june".toList, 6),
   ("july".toList, 7), ("august".toList, 8), ("september".toList, 9),
   ("october".toList, 10), ("november".toList, 11), ("december".toList, 12)]

/-- Match a month-name alternative from `table` at the head of the input. -/
def pMonthName (table : List (List Char × Nat)) (cs : List Char) : Option (Nat × List Char) :=
  match table with
  | [] => none
  | (nm, v) :: rest =>
    if nm.isPrefixOf cs then some (v, cs.drop nm.length)
    else pMonthName rest cs

/-- Format `%Y<sep>%m<sep>%d`. -/
def fmtYmd (sep : Char) (cs : List Char) : Option PyDate := do
  let (y, r1) ← p4digits cs
  let r2 ← litChar sep r1
  let (m, r3) ← pMonthNum r2
  let r4 ← litChar sep r3
  let (d, r5) ← pDayNum r4
  if r5 = [] then some (y, m, d) else none

/-- Format `%d/%m/%Y`. -/
def fmtDmy (cs : List Char) : Option PyDate := do
  let (d, r1) ← pDayNum cs
  let r2 ← litChar '/' r1
  let (m, r3) ← pMonthNum r2
  let r4 ← litChar '/' r3
  let (y, r5) ← p4digits r4
  if r5 = [] then some (y, m, d) else none

/-- Format `%m/%d/%Y`. -/
def fmtMdy (cs : List Char) : Option PyDate := do
  let (m, r1) ← pMonthNum cs
  let r2 ← litChar '/' r1
  let (d, r3) ← pDayNum r2
  let r4 ← litChar '/' r3
  let (y, r5) ← p4digits r4
  if r5 = [] then some (y, m, d) else none

/-- Formats `%b %d, %Y` and `%B %d, %Y` (parameterized by the name table). -/
def fmtNameDY (table : List (List Char × Nat)) (cs : List Char) : Option PyDate := do
  let (m, r1) ← pMonthName table cs
  let r2 ← skipWs1 r1
  let (d, r3) ← pDayNum r2
  let r4 ← litChar ',' r3
  let r5 ← skipWs1 r4
  let (y, r6) ← p4digits r5
  if r6 = [] then some (y, m, d) else none

/-- Format `%Y-%m`. -/
def fmtYm (cs : List Char) : Option PyDate := do
  let (y, r1) ← p4digits cs
  let r2 ← litChar '-' r1
  let (m, r3) ← pMonthNum r2
  if r3 = [] then some (y, m, 1) else none

/-- Gregorian leap-year test, as `datetime`. -/
def isLeap (y : Nat) : Bool := y % 4 = 0 && (y % 100 ≠ 0 || y % 400 = 0)

/-- Number of days in a month, as `datetime`. -/
def daysInMonth (y m : Nat) : Nat :=
  if m = 2 then (if isLeap y then 29 else 28)
  else if m = 4 || m = 6 || m = 9 || m = 11 then 30
  else 31

/-- `datetime(y, m, d)` constructor validation (the per-format `except`
catches the `ValueError` of an out-of-range triple). -/
def dtValid (y m d : Nat) : Bool :=
  1 ≤ y && y ≤ 9999 && 1 ≤ m && m ≤ 12 && 1 ≤ d && d ≤ daysInMonth y m

/-- Keep a regex-level parse only when `datetime` accepts the triple. -/
def tryFmt (o : Option PyDate) : Option PyDate :=
  match o with
  | some p => if dtValid p.1 p.2.1 p.2.2 then some p else none
  | none => none

/-- First format attempt (in source order) that parses and validates. -/
def firstValid : List (Option PyDate) → Option PyDate
  | [] => none
  | o :: rest =>
    match tryFmt o with
    | some p => some p
    | none => firstValid rest

/-- The `strptime` cascade of `months_since` over the source's seven formats,
case-insensitively (the input is lowercased; digits and separators are
unaffected). -/
def parseDateStr (s : String) : Option PyDate :=
  let cs := lowerL s.toList
  firstValid
    [fmtYmd '-' cs, fmtYmd '/' cs, fmtDmy cs, fmtMdy cs,
     fmtNameDY monthAbbrevs cs, fmtNameDY monthFulls cs, fmtYm cs]

/-- Calendar-month difference from the parsed date to `NOW` = 2025-10-15. -/
def monthsOfDate (y m : Nat) : Int :=
  ((2025 : Int) - y) * 12 + ((10 : Int) - m)

/-- `months_since(date_str)`: `None` on non-strings and blank strings,
otherwise the whole-month difference to `NOW` when some format parses. -/
def months_since (v : PyValue) : Option Int :=
  match v with
  | .pstr s =>
    let t := trimL s.toList
    if t = [] then none
    else (parseDateStr (String.mk t)).map (fun p => monthsOfDate p.1 p.2.1)
  | _ => none

/-! ### Money parsing: `parse_money_range_usd`

After normalization (`s.replace(",","").upper().strip().replace(" TO ","-")`)
the source tries, in order: a full-match two-sided range regex
`^\$?([\d\.]+)\s*([KMB])\s*[-–]\s*\$?([\d\.]+)\s*([KMB])$`, a full-match
single-value regex `^\$?([\d\.]+)\s*([KMB])\+?$`, and finally
`findall(([\d\.]+)\s*([KMB]))`.  Numeric tokens are valued by the helper
`num`, which scans `(\d+(\.\d+)?)\s*([KMB])?` anywhere in the token and
falls back to `None` when the token holds no digit.  These patterns are
backtracking-free on their disjoint character classes, so greedy scanners
are exact. -/

/-- Drop a leading run of Python whitespace (`\s*`). -/
def skipWsL (cs : List Char) : List Char := cs.dropWhile isPyWs

/-- Greedy nonempty `[\d\.]+` run. -/
def pMoneyRun (cs : List Char) : Option (List Char × List Char) :=
  let run := cs.takeWhile (fun c => c.isDigit || c = '.')
  if run = [] then none else some (run, cs.drop run.length)

/-- A magnitude suffix character `[KMB]` (input is uppercased). -/
def pKMB : List Char → Option (Char × List Char)
  | c :: r => if c = 'K' || c = 'M' || c = 'B' then some (c, r) else none
  | [] => none

/-- Optional leading dollar sign (`\$?`). -/
def pDollarOpt : List Char → List Char
  | '$' :: r => r
  | cs => cs

/-- A range dash `[-–]`. -/
def pDash : List Char → Option (List Char)
  | c :: r => if c = '-' || c = '–' then some r else none
  | [] => none

/-- The two-sided money-range regex; yields the two `num` argument tokens. -/
def moneyRangeRx (cs : List Char) : Option (List Char × List Char) := do
  let (run1, r1) ← pMoneyRun (pDollarOpt cs)
  let (k1, r2) ← pKMB (skipWsL r1)
  let r3 ← pDash (skipWsL r2)
  let (run2, r4) ← pMoneyRun (pDollarOpt r3)
  let (k2, r5) ← pKMB (skipWsL r4)
  if r5 = [] then some (run1 ++ [k1], run2 ++ [k2]) else none

/-- The single-value money regex (optional trailing `+`); yields the `num` token. -/
def moneySingleRx (cs : List Char) : Option (List Char) := do
  let (run, r1) ← pMoneyRun (pDollarOpt cs)
  let (k, r2) ← pKMB (skipWsL r1)
  let r3 := match r2 with | '+' :: r => r | _ => r2
  if r3 = [] then some (run ++ [k]) else none

/-- `num(tok)`: value of the first `(\d+(\.\d+)?)\s*([KMB])?` occurrence in
the token, `none` when the token holds no digit (the `float(tok)` fallback
raises on every token reachable from the call sites). -/
def pyNum (tok : List Char) : Option ℚ :=
  let rest := tok.dropWhile (fun c => !c.isDigit)
  match rest with
  | [] => none
  | _ =>
    let ip := rest.takeWhile Char.isDigit
    let r1 := rest.drop ip.length
    let fpr : List Char × List Char :=
      match r1 with
      | '.' :: r =>
        let ds := r.takeWhile Char.isDigit
        if ds = [] then ([], r1) else (ds, r.drop ds.length)
      | _ => ([], r1)
    let mult : ℚ :=
      match skipWsL fpr.2 with
      | 'K' :: _ => 1000
      | 'M' :: _ => 1000000
      | 'B' :: _ => 1000000000
      | _ => 1
    some (((natOfDigits ip : ℚ) + (natOfDigits fpr.1 : ℚ) / (10 : ℚ) ^ fpr.1.length) * mult)

/-- Non-overlapping left-to-right `findall(([\d\.]+)\s*([KMB]))` scan,
collecting the concatenated `num` argument tokens.  Fuel-indexed; the fuel
`cs.length` suffices because each step consumes at least one character. -/
def moneyPairsGo : Nat → List Char → List (List Char)
  | 0, _ => []
  | _ + 1, [] => []
  | f + 1, c :: rest =>
    match (do
        let (run, r1) ← pMoneyRun (c :: rest)
        let (k, r2) ← pKMB (skipWsL r1)
        some (run ++ [k], r2) : Option (List Char × List Char)) with
    | some (tok, r2) => tok :: moneyPairsGo f r2
    | none => moneyPairsGo f rest

/-- All `findall` tokens of the free-text magnitude scan. -/
def moneyPairs (cs : List Char) : List (List Char) :=
  moneyPairsGo cs.length cs

/-- `parse_money_range_usd(s)`: a pair of optional USD bounds. -/
def parse_money_range_usd (v : PyValue) : Option ℚ × Option ℚ :=
  match v with
  | .pstr s =>
    if trimL s.toList = [] then (none, none)
    else
      let x := replacePat " TO ".toList "-".toList
        (trimL (upperL (s.toList.filter (fun c => c ≠ ','))))
      if containsPat "UNKNOWN".toList x || x = "-".toList || x = "N/A".toList
          || x = "NA".toList then (none, none)
      else
        match moneyRangeRx x with
        | some (t1, t2) => (pyNum t1, pyNum t2)
        | none =>
          match moneySingleRx x with
          | some t => (pyNum t, none)
          | none =>
            match (moneyPairs x).filterMap pyNum with
            | [] => (none, none)
            | q :: qs => (some (qs.foldl min q), some (qs.foldl max q))
  | _ => (none, none)

/-! ### Employee-range parsing: `parse_emp_range` and truthy coercion `yn` -/

/-- The full-match `^\s*(\d+)\s*-\s*(\d+)\s*$` employee-range regex. -/
def empRange (cs : List Char) : Option (Nat × Nat) :=
  let t1 := skipWsL cs
  let d1 := t1.takeWhile Char.isDigit
  if d1 = [] then none
  else
    match litChar '-' (skipWsL (t1.drop d1.length)) with
    | none => none
    | some r3 =>
      let t2 := skipWsL r3
      let d2 := t2.takeWhile Char.isDigit
      if d2 = [] then none
      else if skipWsL (t2.drop d2.length) = [] then
        some (natOfDigits d1, natOfDigits d2)
      else none

/-- Body of `parse_emp_range` after the string coercion: normalization
(`replace(",","").lower().strip().replace(" to ","-")`), then trailing-`+`
digit sweep, range regex, or bare digit sweep (`int(re.sub(r"\D","",x))`,
which raises — recovered as unknown — exactly when no digit remains). -/
def empGo (cs0 : List Char) : Option Nat × Option Nat :=
  let x := replacePat " to ".toList "-".toList
    (trimL (lowerL (cs0.filter (fun c => c ≠ ','))))
  if x.getLast? = some '+' then
    let ds := x.filter Char.isDigit
    if ds = [] then (none, none) else (some (natOfDigits ds), none)
  else
    match empRange x with
    | some (a, b) => (some a, some b)
    | none =>
      let ds := x.filter Char.isDigit
      if ds = [] then (none, none) else (some (natOfDigits ds), some (natOfDigits ds))

/-- `parse_emp_range(s)`: `None` input is unknown; non-string input is
coerced with `str()` first. -/
def parse_emp_range (v : PyValue) : Option Nat × Option Nat :=
  match v with
  | .pnone => (none, none)
  | .pint n => empGo (toString n).toList
  | .pstr s => empGo s.toList

/-- `yn(v)`: truthy coercion.  A string is true exactly on the affirmative
token set (the negative set and the fall-through both yield `False`); a
number is true when nonzero; anything else is `False`. -/
def yn (v : PyValue) : Bool :=
  match v with
  | .pstr s =>
    let t := String.mk (trimL (lowerL s.toList))
    if t ∈ ["yes", "y", "true", "t", "1", "actively hiring", "hiring"] then true
    else false
  | .pint n => decide (n ≠ 0)
  | .pnone => false

/-! ### Keyword detection: the `RX_SF`, `RX_LK`, `RX_FPNA` patterns

Each pattern is `\b(alt1|alt2|...)\b` with `re.IGNORECASE`: an ordered
alternation of literal phrases, word-bounded on both sides (every
alternative starts and ends with a word character; `looker blocks?` is
expanded into its two literal instances, which is existence-equivalent for
`search`, the only use of `RX_LK`).  Text is lowercased before scanning,
matching the case-insensitive flag at ASCII fidelity. -/

/-- Python `\w` at ASCII fidelity: letters, digits, underscore. -/
def isWordChar (c : Char) : Bool := c.isAlphanum || c = '_'

/-- Whether alternative `a` matches at the head of `cs`, word-bounded:
`prev` is the character preceding this position (`none` at text start). -/
def altOk (a : List Char) (prev : Option Char) (cs : List Char) : Bool :=
  a.isPrefixOf cs
    && (match prev with | none => true | some p => !isWordChar p)
    && (match cs.drop a.length with | [] => true | nxt :: _ => !isWordChar nxt)

/-- `re.search` of a word-bounded alternation over already-lowercased text. -/
def searchRX (alts : List (List Char)) : Option Char → List Char → Bool
  | _, [] => false
  | prev, c :: rest =>
    alts.any (fun a => altOk a prev (c :: rest)) || searchRX alts (some c) rest

/-- First alternative (in pattern order) matching word-bounded at the head. -/
def pickAlt (alts : List (List Char)) (prev : Option Char) (cs : List Char) :
    Option (List Char) :=
  alts.find? (fun a => altOk a prev cs)

/-- `len(re.findall(...))` for a word-bounded alternation: non-overlapping
left-to-right matches, the scan resuming after each match.  Fuel-indexed;
`cs.length` suffices because every alternative is nonempty. -/
def countRXGo (alts : List (List Char)) : Nat → Option Char → List Char → Nat
  | 0, _, _ => 0
  | _ + 1, _, [] => 0
  | f + 1, prev, c :: rest =>
    match pickAlt alts prev (c :: rest) with
    | some a => 1 + countRXGo alts f a.getLast? ((c :: rest).drop a.length)
    | none => countRXGo alts f (some c) rest

/-- Number of pattern matches in already-lowercased text. -/
def countRX (alts : List (List Char)) (cs : List Char) : Nat :=
  countRXGo alts cs.length none cs

/-- Alternatives of `RX_SF` (CRM platform). -/
def sfAlts : List (List Char) :=
  ["salesforce".toList, "sfdc".toList, "sales cloud".toList,
   "service cloud".toList, "marketing cloud".toList, "salesforce.com".toList]

/-- Alternatives of `RX_LK` (analytics platform), `looker blocks?` expanded. -/
def lkAlts : List (List Char) :=
  ["looker".toList, "lookml".toList, "looker studio".toList,
   "looker blocks".toList, "looker block".toList]

/-- Alternatives of `RX_FPNA` (FP&A terminology). -/
def fpnaAlts : List (List Char) :=
  ["fp&a".toList, "fpna".toList, "financial planning".toList]

/-! ### Records and the local (base) flag evaluator -/

/-- An input record: the named string fields the scorer reads (the loader
normalizes every missing cell to the empty string). -/
structure Row where
  organizationName : String
  website : String
  organizationNameURL : String
  ipoStatus : String
  lastFundingType : String
  lastFundingDate : String
  activelyHiring : String
  contactJobDepartments : String
  description : String
  numberOfEmployees : String
  estimatedRevenueRange : String
deriving DecidableEq, Repr

/-- The derived per-record flag block returned by both scoring variants. -/
structure Flags where
  size_ok : Bool
  growth_ok : Bool
  fpna_ok : Bool
  jobs_ok : Bool
  stack_ok : Bool
  mid_ok : Bool
  score : Nat
  months_since_raise : Int
deriving DecidableEq, Repr

/-- The late-stage funding categories `SERIES_GROWTH`. -/
def seriesGrowth : List String :=
  ["series b", "series c", "series d", "growth equity", "private equity"]

/-- The department/description haystack `f"{depts}\n{desc}"`, lowercased. -/
def localText (row : Row) : List Char :=
  lowerL (row.contactJobDepartments.toList ++ '\n' :: row.description.toList)

/-- `size_ok`: employee range overlaps `[200, 2000]`; with only a lower
bound, that bound must lie in `[200, 2000]`; with no lower bound, false. -/
def sizeOkOf (row : Row) : Bool :=
  match parse_emp_range (.pstr row.numberOfEmployees) with
  | (some a, some b) => decide (a ≤ 2000) && decide (200 ≤ b)
  | (some a, none) => decide (200 ≤ a) && decide (a ≤ 2000)
  | (none, _) => false

/-- `growth_ok`: hiring, or a raise within 12 months, or a late-stage
funding type while not publicly listed. -/
def growthOkOf (row : Row) : Bool :=
  let hiring := yn (.pstr row.activelyHiring)
  let m := months_since (.pstr row.lastFundingDate)
  let recentRaise := match m with | some v => decide (v ≤ 12) | none => false
  let seriesOk :=
    decide (String.mk (trimL (lowerL row.ipoStatus.toList)) ≠ "public")
      && decide (String.mk (trimL (lowerL row.lastFundingType.toList)) ∈ seriesGrowth)
  hiring || recentRaise || seriesOk

/-- The local FP&A headcount proxy: `min(20, 2 * mentions)`. -/
def localFpnaCount (row : Row) : Nat :=
  min 20 (countRX fpnaAlts (localText row) * 2)

/-- `mid_ok`: revenue range overlaps `[$50M, $1B]` (unknown lower bound
reads 0, unknown upper bound reads `9e18`); with no revenue data, `size_ok`. -/
def midOkOf (row : Row) : Bool :=
  match parse_money_range_usd (.pstr row.estimatedRevenueRange) with
  | (none, none) => sizeOkOf row
  | (rmin, rmax) =>
    decide (rmin.getD 0 ≤ (1000000000 : ℚ))
      && decide ((50000000 : ℚ) ≤ rmax.getD (9 * (10 : ℚ) ^ 18))

/-- `compute_flags_local(row)`: the base-pass flag evaluator, every signal
drawn from the record's own fields. -/
def compute_flags_local (row : Row) : Flags :=
  let size_ok := sizeOkOf row
  let growth_ok := growthOkOf row
  let fpna_ok := decide (5 < localFpnaCount row)
  let jobs_ok := yn (.pstr row.activelyHiring) && searchRX fpnaAlts none (localText row)
  let stack_ok := searchRX sfAlts none (localText row) || searchRX lkAlts none (localText row)
  let mid_ok := midOkOf row
  { size_ok := size_ok
    growth_ok := growth_ok
    fpna_ok := fpna_ok
    jobs_ok := jobs_ok
    stack_ok := stack_ok
    mid_ok := mid_ok
    score := List.count true [size_ok, growth_ok, fpna_ok, jobs_ok, stack_ok, mid_ok]
    months_since_raise := (months_since (.pstr row.lastFundingDate)).getD 9999 }

/-! ### The network model and the enrichment detectors

A `Web` oracle fixes the outcome of every network-visible operation:
`get url` is the `requests.get` outcome (`.err` models a raised exception
— timeout, connection failure — and `.ok status body` a response);
`links home base` models the pure-but-HTML-bound link extraction of
`find_career_links` (BeautifulSoup is abstracted; the conventional
fallback paths and deduplication are concrete); `serp q` is the SerpAPI
round trip for query `q` (URL encoding abstracted), its payload `none`
modelling a `r.json()` failure. -/

/-- Outcome of a `requests.get`. -/
inductive FetchOutcome where
  | err : FetchOutcome
  | ok : Nat → String → FetchOutcome

/-- The parsed SerpAPI response body: an optional numeric
`search_information.total_results` and the length of `organic_results`. -/
structure SerpData where
  total : Option Int
  organicLen : Nat

/-- Outcome of the SerpAPI request: exception, or a response whose body
parses (`some data`) or fails to parse (`none`). -/
inductive SerpOutcome where
  | err : SerpOutcome
  | ok : Nat → Option SerpData → SerpOutcome

/-- The network oracle. -/
structure Web where
  get : String → FetchOutcome
  links : String → String → List String
  serp : String → SerpOutcome

/-- `fetch(url)`: the body on a 200 response, `None` otherwise. -/
def fetch (w : Web) (url : String) : Option String :=
  match w.get url with
  | .ok s b => if s = 200 then some b else none
  | .err => none

/-- Scheme and netloc of a URL, at `urlparse` fidelity for the
`scheme://netloc[/...]` shapes produced by the callers. -/
def schemeNetloc (url : String) : String × String :=
  if containsPat "://".toList url.toList then
    let sch := String.mk (url.toList.takeWhile (fun c => c ≠ ':'))
    let after := url.toList.drop (sch.length + 3)
    (sch, String.mk (after.takeWhile (fun c => c ≠ '/' && c ≠ '?' && c ≠ '#')))
  else ("", "")

/-- Whether one line of a robots file matches `(?im)^disallow\s*:\s*/\s*$`. -/
def disallowLine (cs : List Char) : Bool :=
  let l := lowerL cs
  "disallow".toList.isPrefixOf l
    && (match skipWsL (l.drop 8) with
        | ':' :: r1 =>
          (match skipWsL r1 with
           | '/' :: r2 => skipWsL r2 = []
           | _ => false)
        | _ => false)

/-- Whether the robots body holds a blanket `Disallow: /` directive. -/
def disallowAll (body : String) : Bool :=
  (body.toList.splitOn '\n').any disallowLine

/-- `allowed(url)`: fetch `scheme://netloc/robots.txt`; any failure or
non-200 status grants permission; a blanket disallow denies it. -/
def allowed (w : Web) (url : String) : Bool :=
  let p := schemeNetloc url
  match w.get (p.1 ++ "://" ++ p.2 ++ "/robots.txt") with
  | .err => true
  | .ok st body => if st ≠ 200 then true else !disallowAll body

/-- The site base `scheme://netloc` derived from a domain cell
(`https://` is prepended when the cell does not start with `http`). -/
def baseOf (domain : String) : String :=
  let d := if domain.startsWith "http" then domain else "https://" ++ domain
  let p := schemeNetloc d
  p.1 ++ "://" ++ p.2

/-- `urlparse(...).hostname or domain`: lowercased netloc without
userinfo/port, the raw domain when there is no netloc. -/
def hostOf (domain : String) : String :=
  let d := if domain.startsWith "http" then domain else "https://" ++ domain
  let net := (schemeNetloc d).2
  if net = "" then domain
  else
    let afterAt := (net.toList.splitOn '@').getLastD []
    String.mk (lowerL (afterAt.takeWhile (fun c => c ≠ ':')))

/-- The conventional career-page fallback paths `CAREERS_FALLBACK`. -/
def careersFallback : List String := ["/careers", "/jobs", "/career", "/join-us"]

/-- Order-preserving deduplication (first occurrence kept). -/
def dedupFirst (seen : List String) : List String → List String
  | [] => []
  | u :: rest =>
    if seen.contains u then dedupFirst seen rest
    else u :: dedupFirst (u :: seen) rest

/-- `find_career_links(home_html, base)`: extracted hiring-keyword links
(abstracted into the oracle) followed by the fallback paths, deduplicated. -/
def find_career_links (w : Web) (home base : String) : List String :=
  dedupFirst [] (w.links home base ++ careersFallback.map (fun fb => base ++ fb))

/-- Career-page loop of `scan_jobs_for_fpna`: first fetched page whose text
matches `RX_FPNA` (empty bodies are skipped as falsy). -/
def scanFpnaPages (w : Web) : List String → Bool × String
  | [] => (false, "")
  | u :: rest =>
    match fetch w u with
    | none => scanFpnaPages w rest
    | some html =>
      if html = "" then scanFpnaPages w rest
      else if searchRX fpnaAlts none (lowerL html.toList) then (true, u)
      else scanFpnaPages w rest

/-- `scan_jobs_for_fpna(domain)`: permission check, homepage fetch and
scan, then up to six career pages; every failure degrades to `(False, "")`. -/
def scan_jobs_for_fpna (w : Web) (domain : String) : Bool × String :=
  let base := baseOf domain
  if !allowed w base then (false, "")
  else
    match fetch w base with
    | none => (false, "")
    | some home =>
      if home = "" then (false, "")
      else if searchRX fpnaAlts none (lowerL home.toList) then
        (true, base ++ " (homepage)")
      else scanFpnaPages w ((find_career_links w home base).take 6)

/-- Career-page loop of `detect_stack_via_jobs`: first fetched page with a
CRM or analytics match. -/
def scanStackPages (w : Web) : List String → Bool × String × Bool × String
  | [] => (false, "", false, "")
  | u :: rest =>
    match fetch w u with
    | none => scanStackPages w rest
    | some html =>
      if html = "" then scanStackPages w rest
      else
        let sf := searchRX sfAlts none (lowerL html.toList)
        let lk := searchRX lkAlts none (lowerL html.toList)
        if sf || lk then (sf, if sf then u else "", lk, if lk then u else "")
        else scanStackPages w rest

/-- `detect_stack_via_jobs(domain)`. -/
def detect_stack_via_jobs (w : Web) (domain : String) : Bool × String × Bool × String :=
  let base := baseOf domain
  if !allowed w base then (false, "", false, "")
  else
    match fetch w base with
    | none => (false, "", false, "")
    | some home =>
      if home = "" then (false, "", false, "")
      else scanStackPages w ((find_career_links w home base).take 6)

/-- `detect_stackshare(domain)`: fingerprint page looked up by the first
hostname label. -/
def detect_stackshare (w : Web) (domain : String) : Bool × String × Bool × String :=
  let slug := ((hostOf domain).splitOn ".").headD ""
  let url := "https://stackshare.io/" ++ slug
  if !allowed w url then (false, "", false, "")
  else
    match fetch w url with
    | none => (false, "", false, "")
    | some html =>
      if html = "" then (false, "", false, "")
      else
        (searchRX sfAlts none (lowerL html.toList), "stackshare",
         searchRX lkAlts none (lowerL html.toList), "stackshare")

/-- `detect_builtwith(domain)`: fingerprint page looked up by hostname. -/
def detect_builtwith (w : Web) (domain : String) : Bool × String × Bool × String :=
  let url := "https://builtwith.com/" ++ hostOf domain
  if !allowed w url then (false, "", false, "")
  else
    match fetch w url with
    | none => (false, "", false, "")
    | some html =>
      if html = "" then (false, "", false, "")
      else
        (searchRX sfAlts none (lowerL html.toList), "builtwith",
         searchRX lkAlts none (lowerL html.toList), "builtwith")

/-- The SerpAPI query text for a company name. -/
def serpQuery (name : String) : String :=
  "site:linkedin.com/in (\"FP&A\" OR FPnA) \"" ++ name ++ "\""

/-- `serpapi_fpna_count(company_name, serpapi_key)`: a numeric
`total_results` when present, else the organic-result count when nonzero,
`(None, "")` on missing key/name, any request failure, non-200 status or
unparseable body. -/
def serpapi_fpna_count (w : Web) (name key : String) : Option Int × String :=
  if key = "" || name = "" then (none, "")
  else
    match w.serp (serpQuery name) with
    | .err => (none, "")
    | .ok st payload =>
      if st ≠ 200 then (none, "")
      else
        match payload with
        | none => (none, "")
        | some data =>
          let ev := "SerpAPI: " ++ serpQuery name
          match data.total with
          | some t => (some t, ev)
          | none => (if data.organicLen = 0 then none else some (data.organicLen : Int), ev)

/-! ### The enriched flag evaluator -/

/-- The effective website cell: `row.get("Website") or row.get("Organization Name URL") or ""`. -/
def websiteOf (row : Row) : String :=
  if row.website ≠ "" then row.website else row.organizationNameURL

/-- The enriched FP&A headcount: the SerpAPI count when a key is configured
and the lookup succeeds, else the local proxy. -/
def enrichedFpnaCount (w : Web) (key : Option String) (row : Row) : Int :=
  let serpRes :=
    match key with
    | some k => serpapi_fpna_count w (String.mk (trimL row.organizationName.toList)) k
    | none => (none, "")
  match serpRes.1 with
  | some t => t
  | none => (localFpnaCount row : Int)

/-- The enriched stack signal: career pages, then stackshare, then
builtwith, stopping at the first positive; the local text proxy catches
the all-negative/all-failed case. -/
def enrichedStackOk (w : Web) (row : Row) : Bool :=
  let net :=
    if websiteOf row ≠ "" then
      let r1 := detect_stack_via_jobs w (websiteOf row)
      if r1.1 || r1.2.2.1 then true
      else
        let r2 := detect_stackshare w (websiteOf row)
        if r2.1 || r2.2.2.1 then true
        else
          let r3 := detect_builtwith w (websiteOf row)
          r3.1 || r3.2.2.1
    else false
  net || (searchRX sfAlts none (localText row) || searchRX lkAlts none (localText row))

/-- `compute_flags_enriched(row)`: identical thresholds and identical
`size_ok`/`growth_ok`/`mid_ok`/`months_since_raise` computations as the
local variant; `fpna_ok`, `jobs_ok`, `stack_ok` draw on the network. -/
def compute_flags_enriched (w : Web) (key : Option String) (row : Row) : Flags :=
  let size_ok := sizeOkOf row
  let growth_ok := growthOkOf row
  let fpna_ok := decide ((5 : Int) < enrichedFpnaCount w key row)
  let jobs_ok :=
    if websiteOf row ≠ "" then (scan_jobs_for_fpna w (websiteOf row)).1 else false
  let stack_ok := enrichedStackOk w row
  let mid_ok := midOkOf row
  { size_ok := size_ok
    growth_ok := growth_ok
    fpna_ok := fpna_ok
    jobs_ok := jobs_ok
    stack_ok := stack_ok
    mid_ok := mid_ok
    score := List.count true [size_ok, growth_ok, fpna_ok, jobs_ok, stack_ok, mid_ok]
    months_since_raise := (months_since (.pstr row.lastFundingDate)).getD 9999 }
/-! ### The two-pass pipeline: selection, final pass, merge & export

`pandas.sort_values` over several columns always sorts with the stable
`numpy.lexsort`; a stable sort is uniquely determined by its key, so it is
modelled by a stable insertion sort over the same boolean key relation.
`head(n)` is `List.take n` (the enrichment budget `topn` is a count).
CSV serialization is out of scope: the exported artifacts are modelled as
the ordered row lists. -/

/-- A base-pass row: original position, record, and the base sort keys. -/
structure BRow where
  idx : Nat
  row : Row
  scoreBase : Nat
  tie : Int
deriving DecidableEq

/-- A final-pass row: original position, record, final flags, enrichment marker. -/
structure FRow where
  idx : Nat
  row : Row
  flags : Flags
  enriched : Bool
deriving DecidableEq

/-- Stable insertion of `x` into `l`: `x` is placed before the first
element not weakly preceding it. -/
def insertS (le : α → α → Bool) (x : α) : List α → List α
  | [] => [x]
  | y :: ys => if le x y then x :: y :: ys else y :: insertS le x ys

/-- Stable insertion sort by a total boolean preorder: extensionally equal
to every stable sort over `le`, in particular to `numpy.lexsort`. -/
def insSort (le : α → α → Bool) : List α → List α
  | [] => []
  | x :: xs => insertS le x (insSort le xs)

/-- The compound descending-score / ascending-months key as a boolean
preorder (`ascending=[False, True]`). -/
def keyLe (a b : Nat × Int) : Bool :=
  decide (b.1 < a.1) || (decide (a.1 = b.1) && decide (a.2 ≤ b.2))

/-- Pass 1: base-score every record in input order. -/
def baseRows (rows : List Row) : List BRow :=
  rows.enum.map fun p =>
    let f := compute_flags_local p.2
    ⟨p.1, p.2, f.score, f.months_since_raise⟩

/-- The base ranking `sort_values(by=["Score_BASE","_tie"], ascending=[False,True])`. -/
def baseSorted (rows : List Row) : List BRow :=
  insSort (fun a b => keyLe (a.scoreBase, a.tie) (b.scoreBase, b.tie)) (baseRows rows)

/-- The Candidate Selector: the first `topn` rows of the base ranking. -/
def selectedRows (rows : List Row) (topn : Nat) : List BRow :=
  (baseSorted rows).take topn

/-- The selected original indices (`enrich_index`). -/
def enrichIdx (rows : List Row) (topn : Nat) : List Nat :=
  (selectedRows rows topn).map (fun b => b.idx)

/-- Pass 2: re-score selected records with the enriched variant, keep the
local flags elsewhere, and mark `Enriched`. -/
def finalRows (w : Web) (key : Option String) (rows : List Row) (topn : Nat) : List FRow :=
  rows.enum.map fun p =>
    let sel := (enrichIdx rows topn).contains p.1
    ⟨p.1, p.2,
     if sel then compute_flags_enriched w key p.2 else compute_flags_local p.2,
     sel⟩

/-- The exported full output `scored_full.csv`:
`sort_values(by=["Score","MonthsSinceRaise"], ascending=[False,True])`. -/
def scoredFull (w : Web) (key : Option String) (rows : List Row) (topn : Nat) : List FRow :=
  insSort (fun a b => keyLe (a.flags.score, a.flags.months_since_raise)
    (b.flags.score, b.flags.months_since_raise)) (finalRows w key rows topn)

/-- The exported shortlist `top200.csv`: `out.head(200)`. -/
def top200 (w : Web) (key : Option String) (rows : List Row) (topn : Nat) : List FRow :=
  (scoredFull w key rows topn).take 200

/-! ### Generic facts about the stable insertion sort -/

theorem mem_insertS (le : α → α → Bool) (x : α) (l : List α) (a : α) :
    a ∈ insertS le x l ↔ a = x ∨ a ∈ l := by
  induction l with
  | nil => simp [insertS]
  | cons y ys ih =>
    by_cases h : le x y = true
    · simp [insertS, h]
    · simp only [insertS, if_neg h, List.mem_cons, ih]
      tauto

theorem length_insertS (le : α → α → Bool) (x : α) (l : List α) :
    (insertS le x l).length = l.length + 1 := by
  induction l with
  | nil => rfl
  | cons y ys ih =>
    by_cases h : le x y = true
    · simp [insertS, h]
    · simp [insertS, h, ih]

theorem length_insSort (le : α → α → Bool) (l : List α) :
    (insSort le l).length = l.length := by
  induction l with
  | nil => rfl
  | cons x xs ih => simp [insSort, length_insertS, ih]

theorem pairwise_insertS (le : α → α → Bool) (P : α → α → Prop)
    (hfalse : ∀ a b, le a b = false → P b a) (x : α) (l : List α)
    (hl : l.Pairwise P) (hx : ∀ y ∈ l, P x y) :
    (insertS le x l).Pairwise P := by
  induction l with
  | nil => simp [insertS]
  | cons y ys ih =>
    by_cases h : le x y = true
    · rw [insertS, if_pos h]
      refine List.Pairwise.cons ?_ hl
      intro z hz
      exact hx z hz
    · rw [insertS, if_neg h]
      rcases hl with - | ⟨hy, hys⟩
      refine List.Pairwise.cons ?_ (ih hys (fun z hz => hx z (List.mem_cons_of_mem y hz)))
      intro z hz
      rcases (mem_insertS le x ys z).1 hz with hzx | hzys
      · rw [hzx]
        exact hfalse x y (by simpa using h)
      · exact hy z hzys

theorem mem_insSort (le : α → α → Bool) (l : List α) (a : α) :
    a ∈ insSort le l ↔ a ∈ l := by
  induction l with
  | nil => simp [insSort]
  | cons x xs ih => simp [insSort, mem_insertS, ih]

theorem pairwise_insSort (le : α → α → Bool) (P : α → α → Prop)
    (hfalse : ∀ a b, le a b = false → P b a) (R : α → α → Prop)
    (himp : ∀ a b, R a b → P a b) (l : List α) (hl : l.Pairwise R) :
    (insSort le l).Pairwise P := by
  induction l with
  | nil => simp [insSort]
  | cons x xs ih =>
    rcases hl with - | ⟨hx, hxs⟩
    refine pairwise_insertS le P hfalse x (insSort le xs) (ih hxs) ?_
    intro y hy
    exact himp x y (hx y ((mem_insSort le xs y).1 hy))

theorem sorted_insertS (le : α → α → Bool)
    (htot : ∀ a b, le a b = false → le b a = true)
    (htrans : ∀ a b c, le a b = true → le b c = true → le a c = true)
    (x : α) (l : List α) (hl : l.Pairwise fun a b => le a b = true) :
    (insertS le x l).Pairwise fun a b => le a b = true := by
  induction l with
  | nil => simp [insertS]
  | cons y ys ih =>
    rcases hl with - | ⟨hy, hys⟩
    by_cases h : le x y = true
    · rw [insertS, if_pos h]
      refine List.Pairwise.cons ?_ (List.Pairwise.cons hy hys)
      intro z hz
      rcases List.mem_cons.1 hz with rfl | hzys
      · exact h
      · exact htrans x y z h (hy z hzys)
    · rw [insertS, if_neg h]
      refine List.Pairwise.cons ?_ (ih hys)
      intro z hz
      rcases (mem_insertS le x ys z).1 hz with hzx | hzys
      · rw [hzx]
        exact htot x y (by simpa using h)
      · exact hy z hzys

theorem sorted_insSort (le : α → α → Bool)
    (htot : ∀ a b, le a b = false → le b a = true)
    (htrans : ∀ a b c, le a b = true → le b c = true → le a c = true)
    (l : List α) :
    (insSort le l).Pairwise fun a b => le a b = true := by
  induction l with
  | nil => simp [insSort]
  | cons x xs ih => exact sorted_insertS le htot htrans x (insSort le xs) ih

/-- The compound key order is total. -/
theorem keyLe_total (a b : Nat × Int) : keyLe a b = false → keyLe b a = true := by
  rcases a with ⟨s1, m1⟩
  rcases b with ⟨s2, m2⟩
  simp only [keyLe, Bool.or_eq_false_iff, Bool.or_eq_true, Bool.and_eq_false_iff,
    Bool.and_eq_true, decide_eq_false_iff_not, decide_eq_true_eq, not_lt]
  intro h
  rcases h with ⟨h1, h2⟩
  rcases lt_or_eq_of_le h1 with hlt | heq
  · exact Or.inl hlt
  · subst heq
    rcases h2 with h2 | h2
    · omega
    · exact Or.inr ⟨rfl, le_of_lt (lt_of_not_le h2)⟩

/-- The compound key order is transitive. -/
theorem keyLe_trans (a b c : Nat × Int) :
    keyLe a b = true → keyLe b c = true → keyLe a c = true := by
  rcases a with ⟨s1, m1⟩
  rcases b with ⟨s2, m2⟩
  rcases c with ⟨s3, m3⟩
  simp only [keyLe, Bool.or_eq_true, Bool.and_eq_true, decide_eq_true_eq]
  intro h1 h2
  rcases h1 with h1 | ⟨h1e, h1m⟩ <;> rcases h2 with h2 | ⟨h2e, h2m⟩
  · exact Or.inl (lt_trans h2 h1)
  · exact Or.inl (h2e ▸ h1)
  · exact Or.inl (h1e ▸ h2)
  · exact Or.inr ⟨h1e.trans h2e, le_trans h1m h2m⟩

/-- Equal keys weakly precede each other (the lexsort relation is reflexive
on key-ties — what makes stability meaningful). -/
theorem keyLe_of_eq (a b : Nat × Int) (h : a = b) : keyLe a b = true := by
  subst h
  simp [keyLe]

/-! ### Supporting facts -/

/-- Every date surviving a format attempt passed `datetime` validation. -/
theorem tryFmt_valid (o : Option PyDate) (p : PyDate) (h : tryFmt o = some p) :
    dtValid p.1 p.2.1 p.2.2 = true := by
  cases o with
  | none => cases h
  | some q =>
    have h' : (if dtValid q.1 q.2.1 q.2.2 = true then some q else none) = some p := h
    by_cases hq : dtValid q.1 q.2.1 q.2.2 = true
    · rw [if_pos hq] at h'
      cases h'
      exact hq
    · rw [if_neg hq] at h'
      cases h'

theorem firstValid_valid (l : List (Option PyDate)) (p : PyDate)
    (h : firstValid l = some p) : dtValid p.1 p.2.1 p.2.2 = true := by
  induction l with
  | nil => cases h
  | cons o rest ih =>
    rw [firstValid] at h
    cases ho : tryFmt o with
    | some q =>
      rw [ho] at h
      cases h
      exact tryFmt_valid o p ho
    | none =>
      rw [ho] at h
      exact ih h

/-- A successfully parsed funding date is a valid calendar date; in
particular `1 ≤ m ≤ 12` and `1 ≤ y ≤ 9999`. -/
theorem parseDateStr_valid (s : String) (y m d : Nat)
    (h : parseDateStr s = some (y, m, d)) :
    1 ≤ y ∧ y ≤ 9999 ∧ 1 ≤ m ∧ m ≤ 12 := by
  have hv := firstValid_valid _ _ h
  simp only [dtValid, Bool.and_eq_true, decide_eq_true_eq] at hv
  exact ⟨hv.1.1.1.1.1, hv.1.1.1.1.2, hv.1.1.1.2, hv.1.1.2⟩

/-- `months_since` on a record whose trimmed funding date parses. -/
theorem months_since_of_parse (s : String) (y m d : Nat)
    (h : parseDateStr (String.mk (trimL s.toList)) = some (y, m, d)) :
    months_since (.pstr s) = some (monthsOfDate y m) := by
  simp only [months_since]
  by_cases ht : trimL s.toList = []
  · rw [ht] at h
    have h0 : parseDateStr (String.mk []) = none := by decide
    rw [h0] at h
    cases h
  · rw [if_neg ht, h]
    rfl

/-- Indices in `enumFrom` start at the offset. -/
theorem fst_ge_of_mem_enumFrom (l : List α) (m : Nat) (p : Nat × α)
    (hp : p ∈ List.enumFrom m l) : m ≤ p.1 := by
  induction l generalizing m with
  | nil => cases hp
  | cons x xs ih =>
    rw [List.enumFrom] at hp
    rcases List.mem_cons.1 hp with h | h
    · rw [h]
    · exact le_trans (Nat.le_succ m) (ih (m + 1) h)

/-- `enumFrom` indices are strictly increasing along the list. -/
theorem pairwise_fst_enumFrom (l : List α) (m : Nat) :
    (List.enumFrom m l).Pairwise (fun a b => a.1 < b.1) := by
  induction l generalizing m with
  | nil => exact List.Pairwise.nil
  | cons x xs ih =>
    rw [List.enumFrom]
    refine List.Pairwise.cons ?_ (ih (m + 1))
    intro p hp
    exact lt_of_lt_of_le (Nat.lt_succ_self m) (fst_ge_of_mem_enumFrom xs (m + 1) p hp)

/-- Original positions are strictly increasing along the base-pass rows. -/
theorem pairwise_idx_baseRows (rows : List Row) :
    (baseRows rows).Pairwise (fun a b => a.idx < b.idx) := by
  unfold baseRows
  refine List.Pairwise.map _ (fun a b h => ?_) (pairwise_fst_enumFrom rows 0)
  exact h

/-- What a true compound key comparison says about scores and tie values. -/
theorem keyLe_imp (s1 s2 : Nat) (m1 m2 : Int) (h : keyLe (s1, m1) (s2, m2) = true) :
    s2 ≤ s1 ∧ (s1 = s2 → m1 ≤ m2) := by
  simp only [keyLe, Bool.or_eq_true, Bool.and_eq_true, decide_eq_true_eq] at h
  constructor
  · rcases h with h | ⟨he, _⟩
    · exact le_of_lt h
    · exact le_of_eq he.symm
  · intro hq
    rcases h with h | ⟨_, hm⟩
    · omega
    · exact hm

/-- The record with every field empty (a fully blank CSV line). -/
def emptyRow : Row := ⟨"", "", "", "", "", "", "", "", "", "", ""⟩

/-- A blank record carrying only a funding date. -/
def rowWithDate (s : String) : Row := { emptyRow with lastFundingDate := s }

/-- The all-failure network: every request raises. -/
def errWeb : Web := ⟨fun _ => .err, fun _ _ => [], fun _ => .err⟩

/-! ### The claims -/

/-- C1: for every record and both scoring variants (local and enriched),
the returned `score` equals the count of true flags among `size_ok`,
`growth_ok`, `fpna_ok`, `jobs_ok`, `stack_ok`, `mid_ok`, and therefore
always lies in `{0,1,2,3,4,5,6}`. -/
theorem C1_score_counts_true_flags :
    ∀ (row : Row) (w : Web) (key : Option String),
      ((compute_flags_local row).score =
          [(compute_flags_local row).size_ok, (compute_flags_local row).growth_ok,
           (compute_flags_local row).fpna_ok, (compute_flags_local row).jobs_ok,
           (compute_flags_local row).stack_ok, (compute_flags_local row).mid_ok].count true ∧
        (compute_flags_local row).score ≤ 6) ∧
      ((compute_flags_enriched w key row).score =
          [(compute_flags_enriched w key row).size_ok, (compute_flags_enriched w key row).growth_ok,
           (compute_flags_enriched w key row).fpna_ok, (compute_flags_enriched w key row).jobs_ok,
           (compute_flags_enriched w key row).stack_ok, (compute_flags_enriched w key row).mid_ok].count true ∧
        (compute_flags_enriched w key row).score ≤ 6) := by
  intro row w key
  refine ⟨⟨rfl, ?_⟩, ⟨rfl, ?_⟩⟩
  · show List.count true
      [(compute_flags_local row).size_ok, (compute_flags_local row).growth_ok,
       (compute_flags_local row).fpna_ok, (compute_flags_local row).jobs_ok,
       (compute_flags_local row).stack_ok, (compute_flags_local row).mid_ok] ≤ 6
    simpa using List.count_le_length (a := true)
      (l := [(compute_flags_local row).size_ok, (compute_flags_local row).growth_ok,
             (compute_flags_local row).fpna_ok, (compute_flags_local row).jobs_ok,
             (compute_flags_local row).stack_ok, (compute_flags_local row).mid_ok])
  · show List.count true
      [(compute_flags_enriched w key row).size_ok, (compute_flags_enriched w key row).growth_ok,
       (compute_flags_enriched w key row).fpna_ok, (compute_flags_enriched w key row).jobs_ok,
       (compute_flags_enriched w key row).stack_ok, (compute_flags_enriched w key row).mid_ok] ≤ 6
    simpa using List.count_le_length (a := true)
      (l := [(compute_flags_enriched w key row).size_ok, (compute_flags_enriched w key row).growth_ok,
             (compute_flags_enriched w key row).fpna_ok, (compute_flags_enriched w key row).jobs_ok,
             (compute_flags_enriched w key row).stack_ok, (compute_flags_enriched w key row).mid_ok])

/-- C8: the field normalizers meet the spec's test vectors for money,
employee-count and date parsing (reference instant 2025-10-15). -/
theorem C8_normalizer_vectors :
    parse_money_range_usd (.pstr "$1M-$5M") = (some 1000000, some 5000000) ∧
    parse_money_range_usd (.pstr "$500K+") = (some 500000, none) ∧
    parse_money_range_usd (.pstr "unknown") = (none, none) ∧
    parse_emp_range (.pstr "500-1,000") = (some 500, some 1000) ∧
    parse_emp_range (.pstr "200+") = (some 200, none) ∧
    parse_emp_range (.pstr "750") = (some 750, some 750) ∧
    months_since (.pstr "2024-10-15") = some 12 ∧
    months_since (.pstr "") = none := by
  refine ⟨?_, ?_, ?_, ?_, ?_, ?_, ?_, ?_⟩
  · rw [show parse_money_range_usd (.pstr "$1M-$5M") = (pyNum "1M".toList, pyNum "5M".toList)
        from rfl,
      show pyNum "1M".toList = some (((natOfDigits "1".toList : ℚ)
        + (natOfDigits "".toList : ℚ) / (10 : ℚ) ^ (0 : Nat)) * 1000000) from rfl,
      show pyNum "5M".toList = some (((natOfDigits "5".toList : ℚ)
        + (natOfDigits "".toList : ℚ) / (10 : ℚ) ^ (0 : Nat)) * 1000000) from rfl,
      show natOfDigits "1".toList = 1 from rfl, show natOfDigits "5".toList = 5 from rfl,
      show natOfDigits "".toList = 0 from rfl]
    norm_num
  · rw [show parse_money_range_usd (.pstr "$500K+") = (pyNum "500K".toList, none) from rfl,
      show pyNum "500K".toList = some (((natOfDigits "500".toList : ℚ)
        + (natOfDigits "".toList : ℚ) / (10 : ℚ) ^ (0 : Nat)) * 1000) from rfl,
      show natOfDigits "500".toList = 500 from rfl, show natOfDigits "".toList = 0 from rfl]
    norm_num
  · decide
  · decide
  · decide
  · decide
  · decide
  · decide

/-- C9: each of the four field normalizers is total — on every input value
(strings, ints, None) it returns a value of its result type — and on
malformed or empty input it recovers to the unknown value (or `False`). -/
theorem C9_normalizers_never_raise :
    (∀ v : PyValue, ∃ r : Option Int, months_since v = r) ∧
    (∀ v : PyValue, ∃ r : Option ℚ × Option ℚ, parse_money_range_usd v = r) ∧
    (∀ v : PyValue, ∃ r : Option Nat × Option Nat, parse_emp_range v = r) ∧
    (∀ v : PyValue, ∃ b : Bool, yn v = b) ∧
    months_since (.pstr "not a date!!") = none ∧
    parse_money_range_usd (.pstr "###") = (none, none) ∧
    parse_emp_range (.pstr "???") = (none, none) ∧
    yn (.pstr "maybe") = false ∧
    months_since .pnone = none ∧
    parse_money_range_usd (.pint 7) = (none, none) ∧
    parse_emp_range .pnone = (none, none) ∧
    yn .pnone = false := by
  refine ⟨fun v => ⟨_, rfl⟩, fun v => ⟨_, rfl⟩, fun v => ⟨_, rfl⟩, fun v => ⟨_, rfl⟩,
    ?_, ?_, ?_, ?_, ?_, ?_, ?_, ?_⟩ <;> decide

/-- C10: two date strings that parse (under the supported formats, after
stripping) to the same calendar year and month yield the same
`months_since` value — the day of month never matters. -/
theorem C10_day_of_month_irrelevant :
    ∀ (s1 s2 : String) (y m d1 d2 : Nat),
      parseDateStr (String.mk (trimL s1.toList)) = some (y, m, d1) →
      parseDateStr (String.mk (trimL s2.toList)) = some (y, m, d2) →
      months_since (.pstr s1) = months_since (.pstr s2) := by
  intro s1 s2 y m d1 d2 h1 h2
  rw [months_since_of_parse s1 y m d1 h1, months_since_of_parse s2 y m d2 h2]

/-- C10 witness: `2025-10-01` and `Oct 15, 2025` both denote October 2025. -/
theorem C10_witness :
    months_since (.pstr "2025-10-01") = months_since (.pstr "Oct 15, 2025") :=
  C10_day_of_month_irrelevant "2025-10-01" "Oct 15, 2025" 2025 10 1 15
    (by decide) (by decide)

/-- C4 counterexample: the claim fails on the code in both halves.  The
parseable date `1192-07-01` yields exactly the sentinel value 9999, so at
the flag level it is indistinguishable from a missing date; and the
parseable future date `2026-10-15` yields the negative value −12. -/
theorem C4_counterexample :
    months_since (.pstr "1192-07-01") = some 9999 ∧
    months_since (.pstr "2026-10-15") = some (-12) ∧
    (compute_flags_local (rowWithDate "1192-07-01")).months_since_raise = 9999 ∧
    (compute_flags_local (rowWithDate "")).months_since_raise = 9999 := by
  refine ⟨?_, ?_, ?_, ?_⟩ <;> decide

/-- C4 (amended): `months_since_raise` equals
`(2025 − year)·12 + (10 − month)` for a parseable funding date — a value
that is non-negative whenever the date's year-month is at most 2025-10 and
strictly below the sentinel whenever it is at least 1192-08 — and is the
sentinel 9999 when the funding date is missing or unparseable. -/
theorem C4_months_since_raise_amended :
    (∀ (s : String) (y m d : Nat),
      parseDateStr (String.mk (trimL s.toList)) = some (y, m, d) →
      months_since (.pstr s) = some (monthsOfDate y m) ∧
      ((y < 2025 ∨ (y = 2025 ∧ m ≤ 10)) → 0 ≤ monthsOfDate y m) ∧
      ((1192 < y ∨ (y = 1192 ∧ 8 ≤ m)) → monthsOfDate y m < 9999)) ∧
    (∀ row : Row, months_since (.pstr row.lastFundingDate) = none →
      (compute_flags_local row).months_since_raise = 9999) := by
  constructor
  · intro s y m d h
    have hb := parseDateStr_valid _ y m d h
    refine ⟨months_since_of_parse s y m d h, ?_, ?_⟩
    · intro hc
      unfold monthsOfDate
      omega
    · intro hc
      unfold monthsOfDate
      omega
  · intro row h
    show (months_since (.pstr row.lastFundingDate)).getD 9999 = 9999
    rw [h]
    rfl

/-- C4 amended-claim witness: October 2024 gives 12 ≥ 0 and below the
sentinel; a blank date cell is reported as the sentinel. -/
theorem C4_witness :
    months_since (.pstr "2024-10-15") = some (monthsOfDate 2024 10) ∧
    (0 : Int) ≤ monthsOfDate 2024 10 ∧
    monthsOfDate 2024 10 < 9999 ∧
    (compute_flags_local (rowWithDate "")).months_since_raise = 9999 :=
  have h := (C4_months_since_raise_amended.1 "2024-10-15" 2024 10 15 (by decide))
  ⟨h.1, h.2.1 (by omega), h.2.2 (by omega),
    C4_months_since_raise_amended.2 (rowWithDate "") (by decide)⟩

/-- Two flag blocks agreeing on every field are equal. -/
theorem flags_ext (a b : Flags) (h1 : a.size_ok = b.size_ok)
    (h2 : a.growth_ok = b.growth_ok) (h3 : a.fpna_ok = b.fpna_ok)
    (h4 : a.jobs_ok = b.jobs_ok) (h5 : a.stack_ok = b.stack_ok)
    (h6 : a.mid_ok = b.mid_ok) (h7 : a.score = b.score)
    (h8 : a.months_since_raise = b.months_since_raise) : a = b := by
  cases a
  cases b
  simp_all

/-- C6: `mid_ok` is true iff the parsed revenue range overlaps
`[50_000_000, 1_000_000_000]` USD — unknown lower bound read as 0, unknown
upper bound effectively infinite (its conjunct always holds) — and when
both bounds are unknown `mid_ok` equals `size_ok`. -/
theorem C6_mid_ok_revenue_overlap :
    ∀ row : Row,
      (compute_flags_local row).mid_ok =
        (match parse_money_range_usd (.pstr row.estimatedRevenueRange) with
         | (none, none) => (compute_flags_local row).size_ok
         | (rmin, rmax) =>
           decide (rmin.getD 0 ≤ (1000000000 : ℚ)) &&
             (match rmax with
              | some r => decide ((50000000 : ℚ) ≤ r)
              | none => true)) := by
  intro row
  have hmid : (compute_flags_local row).mid_ok = midOkOf row := rfl
  have hsize : (compute_flags_local row).size_ok = sizeOkOf row := rfl
  rw [hmid, hsize]
  unfold midOkOf
  rcases h : parse_money_range_usd (.pstr row.estimatedRevenueRange) with ⟨rmin, rmax⟩
  cases rmin with
  | none =>
    cases rmax with
    | none => rfl
    | some b => simp
  | some a =>
    cases rmax with
    | none =>
      have h9 : (50000000 : ℚ) ≤ 9 * (10 : ℚ) ^ 18 := by norm_num
      simp [h9]
    | some b => rfl

/-- C5: the two scoring variants compute `size_ok`, `growth_ok`, `mid_ok`
and `months_since_raise` identically, apply the same `> 5` threshold to
their respective FP&A counts, and differ at most in where `fpna_ok`,
`jobs_ok`, `stack_ok` draw their evidence: whenever those three evidence
flags coincide, the whole flag blocks (score included) coincide. -/
theorem C5_variants_identical_thresholds :
    ∀ (w : Web) (key : Option String) (row : Row),
      (compute_flags_enriched w key row).size_ok = (compute_flags_local row).size_ok ∧
      (compute_flags_enriched w key row).growth_ok = (compute_flags_local row).growth_ok ∧
      (compute_flags_enriched w key row).mid_ok = (compute_flags_local row).mid_ok ∧
      (compute_flags_enriched w key row).months_since_raise
        = (compute_flags_local row).months_since_raise ∧
      (compute_flags_local row).fpna_ok = decide (5 < localFpnaCount row) ∧
      (compute_flags_enriched w key row).fpna_ok
        = decide ((5 : Int) < enrichedFpnaCount w key row) ∧
      ((compute_flags_enriched w key row).fpna_ok = (compute_flags_local row).fpna_ok →
        (compute_flags_enriched w key row).jobs_ok = (compute_flags_local row).jobs_ok →
        (compute_flags_enriched w key row).stack_ok = (compute_flags_local row).stack_ok →
        compute_flags_enriched w key row = compute_flags_local row) := by
  intro w key row
  refine ⟨rfl, rfl, rfl, rfl, rfl, rfl, ?_⟩
  intro h1 h2 h3
  have hscore : (compute_flags_enriched w key row).score = (compute_flags_local row).score := by
    show List.count true
        [(compute_flags_enriched w key row).size_ok, (compute_flags_enriched w key row).growth_ok,
         (compute_flags_enriched w key row).fpna_ok, (compute_flags_enriched w key row).jobs_ok,
         (compute_flags_enriched w key row).stack_ok, (compute_flags_enriched w key row).mid_ok] =
      List.count true
        [(compute_flags_local row).size_ok, (compute_flags_local row).growth_ok,
         (compute_flags_local row).fpna_ok, (compute_flags_local row).jobs_ok,
         (compute_flags_local row).stack_ok, (compute_flags_local row).mid_ok]
    rw [h1, h2, h3]
    rfl
  exact flags_ext _ _ rfl rfl h1 h2 h3 rfl hscore rfl

/-- C5 witness: with no API key, no reachable network and a blank record,
the evidence flags coincide and the enriched block equals the local one. -/
theorem C5_witness :
    compute_flags_enriched errWeb none emptyRow = compute_flags_local emptyRow :=
  (C5_variants_identical_thresholds errWeb none emptyRow).2.2.2.2.2.2
    (by decide) (by decide) (by decide)

/-- C7: every enrichment detector degrades to its negative/unknown result
— `(False, "")`-shaped tuples, `(None, "")` for the search proxy,
permission granted for the robots check — on any network failure, non-200
status, unparseable payload or missing configuration; being total Lean
functions of the oracle, they propagate no exception. -/
theorem C7_detectors_degrade :
    (∀ (w : Web) (d : String), fetch w (baseOf d) = none →
      scan_jobs_for_fpna w d = (false, "")) ∧
    (∀ (w : Web) (l : List String), (∀ u ∈ l, fetch w u = none) →
      scanFpnaPages w l = (false, "")) ∧
    (∀ (w : Web) (d : String), fetch w (baseOf d) = none →
      detect_stack_via_jobs w d = (false, "", false, "")) ∧
    (∀ (w : Web) (l : List String), (∀ u ∈ l, fetch w u = none) →
      scanStackPages w l = (false, "", false, "")) ∧
    (∀ (w : Web) (d : String),
      fetch w ("https://stackshare.io/" ++ ((hostOf d).splitOn ".").headD "") = none →
      detect_stackshare w d = (false, "", false, "")) ∧
    (∀ (w : Web) (d : String), fetch w ("https://builtwith.com/" ++ hostOf d) = none →
      detect_builtwith w d = (false, "", false, "")) ∧
    (∀ (w : Web) (name : String), serpapi_fpna_count w name "" = (none, "")) ∧
    (∀ (w : Web) (key : String), serpapi_fpna_count w "" key = (none, "")) ∧
    (∀ (w : Web) (name key : String), w.serp (serpQuery name) = .err →
      serpapi_fpna_count w name key = (none, "")) ∧
    (∀ (w : Web) (name key : String) (st : Nat) (p : Option SerpData),
      w.serp (serpQuery name) = .ok st p → st ≠ 200 →
      serpapi_fpna_count w name key = (none, "")) ∧
    (∀ (w : Web) (name key : String), w.serp (serpQuery name) = .ok 200 none →
      serpapi_fpna_count w name key = (none, "")) ∧
    (∀ (w : Web) (url : String),
      w.get ((schemeNetloc url).1 ++ "://" ++ (schemeNetloc url).2 ++ "/robots.txt") = .err →
      allowed w url = true) ∧
    (∀ (w : Web) (url : String) (st : Nat) (body : String),
      w.get ((schemeNetloc url).1 ++ "://" ++ (schemeNetloc url).2 ++ "/robots.txt")
        = .ok st body → st ≠ 200 → allowed w url = true) := by
  refine ⟨?_, ?_, ?_, ?_, ?_, ?_, ?_, ?_, ?_, ?_, ?_, ?_, ?_⟩
  · intro w d h
    simp only [scan_jobs_for_fpna]
    rw [h]
    by_cases ha : allowed w (baseOf d) <;> simp [ha]
  · intro w l h
    induction l with
    | nil => rfl
    | cons u rest ih =>
      unfold scanFpnaPages
      rw [h u (List.mem_cons_self u rest)]
      exact ih (fun v hv => h v (List.mem_cons_of_mem u hv))
  · intro w d h
    simp only [detect_stack_via_jobs]
    rw [h]
    by_cases ha : allowed w (baseOf d) <;> simp [ha]
  · intro w l h
    induction l with
    | nil => rfl
    | cons u rest ih =>
      unfold scanStackPages
      rw [h u (List.mem_cons_self u rest)]
      exact ih (fun v hv => h v (List.mem_cons_of_mem u hv))
  · intro w d h
    simp only [detect_stackshare]
    rw [h]
    by_cases ha : allowed w ("https://stackshare.io/" ++ ((hostOf d).splitOn ".").headD "")
      <;> simp [ha]
  · intro w d h
    simp only [detect_builtwith]
    rw [h]
    by_cases ha : allowed w ("https://builtwith.com/" ++ hostOf d) <;> simp [ha]
  · intro w name
    unfold serpapi_fpna_count
    simp
  · intro w key
    unfold serpapi_fpna_count
    simp
  · intro w name key h
    unfold serpapi_fpna_count
    rw [h]
    by_cases hk : key = "" <;> simp [hk]
  · intro w name key st p h hst
    unfold serpapi_fpna_count
    rw [h]
    by_cases hk : key = "" <;> by_cases hn : name = "" <;> simp [hk, hn, hst]
  · intro w name key h
    unfold serpapi_fpna_count
    rw [h]
    by_cases hk : key = "" <;> by_cases hn : name = "" <;> simp [hk, hn]
  · intro w url h
    simp only [allowed]
    rw [h]
  · intro w url st body h hst
    simp only [allowed]
    rw [h]
    simp [hst]

/-- C7 witness: on the all-failure network every detector returns its
negative/unknown result, and permission defaults to granted. -/
theorem C7_witness :
    scan_jobs_for_fpna errWeb "example.com" = (false, "") ∧
    scanFpnaPages errWeb ["https://example.com/careers"] = (false, "") ∧
    detect_stack_via_jobs errWeb "example.com" = (false, "", false, "") ∧
    scanStackPages errWeb ["https://example.com/careers"] = (false, "", false, "") ∧
    detect_stackshare errWeb "example.com" = (false, "", false, "") ∧
    detect_builtwith errWeb "example.com" = (false, "", false, "") ∧
    serpapi_fpna_count errWeb "Acme" "" = (none, "") ∧
    serpapi_fpna_count errWeb "" "key123" = (none, "") ∧
    serpapi_fpna_count errWeb "Acme" "key123" = (none, "") ∧
    allowed errWeb "https://example.com" = true :=
  ⟨C7_detectors_degrade.1 errWeb "example.com" rfl,
   C7_detectors_degrade.2.1 errWeb ["https://example.com/careers"] (fun _ _ => rfl),
   C7_detectors_degrade.2.2.1 errWeb "example.com" rfl,
   C7_detectors_degrade.2.2.2.1 errWeb ["https://example.com/careers"] (fun _ _ => rfl),
   C7_detectors_degrade.2.2.2.2.1 errWeb "example.com" rfl,
   C7_detectors_degrade.2.2.2.2.2.1 errWeb "example.com" rfl,
   C7_detectors_degrade.2.2.2.2.2.2.1 errWeb "Acme",
   C7_detectors_degrade.2.2.2.2.2.2.2.1 errWeb "key123",
   C7_detectors_degrade.2.2.2.2.2.2.2.2.1 errWeb "Acme" "key123" rfl,
   C7_detectors_degrade.2.2.2.2.2.2.2.2.2.2.2.1 errWeb "https://example.com" rfl⟩

/-- C2: the exported full output is ordered with `Score` monotonically
non-increasing and, within equal `Score`, `MonthsSinceRaise`
non-decreasing; the top-200 output is exactly the first 200 rows of the
full output in that order (the entire full output when it is shorter). -/
theorem C2_export_order :
    ∀ (w : Web) (key : Option String) (rows : List Row) (topn : Nat),
      (scoredFull w key rows topn).Pairwise (fun a b =>
        b.flags.score ≤ a.flags.score ∧
        (a.flags.score = b.flags.score →
          a.flags.months_since_raise ≤ b.flags.months_since_raise)) ∧
      top200 w key rows topn = (scoredFull w key rows topn).take 200 ∧
      ((scoredFull w key rows topn).length ≤ 200 →
        top200 w key rows topn = scoredFull w key rows topn) := by
  intro w key rows topn
  refine ⟨?_, rfl, ?_⟩
  · unfold scoredFull
    have hs := sorted_insSort
      (fun a b : FRow => keyLe (a.flags.score, a.flags.months_since_raise)
        (b.flags.score, b.flags.months_since_raise))
      (fun a b h => keyLe_total _ _ h)
      (fun a b c h1 h2 => keyLe_trans _ _ _ h1 h2)
      (finalRows w key rows topn)
    exact hs.imp (fun h => keyLe_imp _ _ _ _ h)
  · intro h
    unfold top200
    exact List.take_of_length_le h

/-- C2 witness: a one-record run, where the full output is shorter than
200 rows and the shortlist equals it. -/
theorem C2_witness :
    top200 errWeb none [emptyRow] 0 = scoredFull errWeb none [emptyRow] 0 :=
  (C2_export_order errWeb none [emptyRow] 0).2.2 (by decide)

/-- C3: the Candidate Selector picks exactly `min(topn, total)` records —
the first `topn` of the ranking by (base score descending,
months-since-raise ascending) — and the ranking is stable: rows tied on
both keys stay in original input order. -/
theorem C3_selector_stable_topn :
    ∀ (rows : List Row) (topn : Nat),
      (selectedRows rows topn).length = min topn rows.length ∧
      selectedRows rows topn = (baseSorted rows).take topn ∧
      (baseSorted rows).Pairwise (fun a b =>
        b.scoreBase ≤ a.scoreBase ∧ (a.scoreBase = b.scoreBase → a.tie ≤ b.tie)) ∧
      (baseSorted rows).Pairwise (fun a b =>
        a.scoreBase = b.scoreBase ∧ a.tie = b.tie → a.idx < b.idx) := by
  intro rows topn
  refine ⟨?_, rfl, ?_, ?_⟩
  · unfold selectedRows
    rw [List.length_take]
    unfold baseSorted
    rw [length_insSort]
    unfold baseRows
    rw [List.length_map, List.enum_length]
  · unfold baseSorted
    have hs := sorted_insSort
      (fun a b : BRow => keyLe (a.scoreBase, a.tie) (b.scoreBase, b.tie))
      (fun a b h => keyLe_total _ _ h)
      (fun a b c h1 h2 => keyLe_trans _ _ _ h1 h2)
      (baseRows rows)
    exact hs.imp (fun h => keyLe_imp _ _ _ _ h)
  · unfold baseSorted
    refine pairwise_insSort
      (fun a b : BRow => keyLe (a.scoreBase, a.tie) (b.scoreBase, b.tie))
      (fun a b => a.scoreBase = b.scoreBase ∧ a.tie = b.tie → a.idx < b.idx)
      ?_ (fun a b => a.idx < b.idx)
      (fun a b h _ => h) (baseRows rows) (pairwise_idx_baseRows rows)
    intro a b hf hk
    exfalso
    have hpair : (a.scoreBase, a.tie) = (b.scoreBase, b.tie) := by
      rw [hk.1, hk.2]
    have hf' : keyLe (a.scoreBase, a.tie) (b.scoreBase, b.tie) = false := hf
    have htrue := keyLe_of_eq _ _ hpair
    rw [htrue] at hf'
    cases hf'

/-- C3 witness: with two records and `topn = 1` the selection has exactly
`min 1 2 = 1` element. -/
theorem C3_witness :
    (selectedRows [emptyRow, rowWithDate "2025-01-01"] 1).length
      = min 1 [emptyRow, rowWithDate "2025-01-01"].length :=
  (C3_selector_stable_topn [emptyRow, rowWithDate "2025-01-01"] 1).1
